import Mathlib

/-
Shallow embedding of the salon booking bot's slot-lifecycle engine
(src/app: logic.py, sheets.py, handlers.py, background.py, config.py).

Conventions of the embedding:

* Slot identifier strings and client ids are abstracted as string codes
  (`Str := Nat`); Python string equality is code equality.  `utils.parse_dt`
  is abstracted as a function `parse : Str → Option Time`, a parameter of
  every definition (equal strings always parse equally); `Time` is minutes
  on an absolute scale and `utils.now()` is an explicit `tnow : Time`
  argument (the wall clock during one handler run).  `timedelta(hours=h)`
  is `60 * h` minutes and `timedelta(minutes=m)` is `m` minutes.
* Spreadsheet rows are records keeping exactly the fields the logic reads;
  pure pass-through columns (client name snapshot, price, duration, the
  separate date and time cells that are always recombined into the
  date-time cell, the reminder column) are elided.  A booking row whose
  date-time cell is missing, empty or malformed is modelled as a slot code
  on which `parse` fails; the source skips such rows identically
  (`if not dt_str: continue` / `except: continue`).
* The four booking status strings are the inductive `BStatus`; the catch
  queue's notified cell (`"Нет"`/`""` versus `"Да"`) is a `Bool`.
* Store calls are assumed to succeed after the Sheets retry wrapper
  (`Sheets._run`); outbound Telegram delivery is the oracle
  `deliver : Nat → Bool` (chat id ↦ send succeeded).
-/

abbrev Str := Nat

abbrev Time := Int

/-- Configuration values from config.py (env-derived, hours/minutes as in
the source): UNAVAILABLE_BEFORE_HOURS, DISPLAY_MIN_HOURS, CATCH_MIN_HOURS,
CATCH_WINDOW_MIN. -/
structure Config where
  unavailableBeforeHours : Int
  displayMinHours : Int
  catchMinHours : Int
  catchWindowMin : Int
deriving DecidableEq

/-- Booking status strings of the Записи sheet: Не подтверждена,
Подтверждена, Отменена, Прошедшая. -/
inductive BStatus where
  | unconfirmed
  | confirmed
  | cancelled
  | past
deriving DecidableEq

/-- Row of the Записи (bookings) sheet: id (col 0), client id (col 1),
combined date-time slot cell (col 5), status (col 9).  Pass-through columns
are elided. -/
structure BookingRow where
  id : Nat
  clientId : Str
  slot : Str
  status : BStatus
deriving DecidableEq

/-- Row of the ПойматьОчередь (catch-queue) sheet: telegram user id
(col 0, `none` when the cell is not an integer), desired slot (col 1),
client id (col 2), service (col 3), notified flag (col 4), creation time
(col 5), chat id (col 6, `none` when not all digits). -/
structure CatchRow where
  userId : Option Nat
  time : Str
  clientId : Str
  service : Str
  notified : Bool
  created : Time
  chat : Option Nat
deriving DecidableEq

/-- In-memory hold from state_store.holds: the dict value
`(time, expires, service, row)` keyed by telegram user id. -/
structure Hold where
  time : Str
  expires : Time
  service : Str
  row : Nat
deriving DecidableEq

/-- Process state: the two mutated sheets, the in-memory holds dict
(association list keyed by telegram user id) and the wall clock of the
last completed operation. -/
structure SysState where
  bookings : List BookingRow
  queue : List CatchRow
  holds : List (Nat × Hold)
  clock : Time
deriving DecidableEq

/-- Insert an element into an already ascending list, after all elements
with a key less than or equal to its own (the placement a stable sort
gives to the latest-scanned element). -/
def sortedInsert (key : α → Int) (a : α) : List α → List α
  | [] => [a]
  | b :: bs => if key b ≤ key a then b :: sortedInsert key a bs else a :: b :: bs

/-- Stable ascending sort by an integer key, modelling Python's
`list.sort(key=...)`. -/
def sortByKey (key : α → Int) (l : List α) : List α :=
  l.foldl (fun acc a => sortedInsert key a acc) []

/-- Skip condition `min_hours is not None and dt <= now() + timedelta(hours=min_hours)`
of logic.get_taken_times. -/
def minHoursSkip (tnow : Time) (minHours : Option Int) (dt : Time) : Bool :=
  match minHours with
  | some m => decide (dt ≤ tnow + 60 * m)
  | none => false

/-- Skip condition `exclude_client_id is not None and client_id == exclude_client_id`
of logic.get_taken_times (an in-model row always carries its client id). -/
def excludeSkip (excludeClientId : Option Str) (clientId : Str) : Bool :=
  match excludeClientId with
  | some e => clientId == e
  | none => false

/-- Loop body of logic.get_taken_times for one booking row, with the
source's continue-guards in order: the date-time cell must parse, lie
strictly after now, pass the optional min-hours horizon and not belong to
the excluded client; then the cell is collected.  No status filter appears
in the source. -/
def takenEntry (parse : Str → Option Time) (tnow : Time)
    (excludeClientId : Option Str) (minHours : Option Int)
    (b : BookingRow) : Option Str :=
  match parse b.slot with
  | none => none
  | some dt =>
    if dt ≤ tnow then none
    else if minHoursSkip tnow minHours dt then none
    else if excludeSkip excludeClientId b.clientId then none
    else some b.slot

/-- Scan loop of logic.get_taken_times over all booking rows. -/
def takenScan (parse : Str → Option Time) (tnow : Time)
    (excludeClientId : Option Str) (minHours : Option Int)
    (bookings : List BookingRow) : List Str :=
  bookings.filterMap (takenEntry parse tnow excludeClientId minHours)

/-- logic.get_taken_times: the scan followed by `out.sort(key=parse_dt)`
(every collected cell parses, so the sort key is total on the output;
`getD 0` is never hit). -/
def get_taken_times (parse : Str → Option Time) (tnow : Time)
    (excludeClientId : Option Str) (minHours : Option Int)
    (bookings : List BookingRow) : List Str :=
  sortByKey (fun s => (parse s).getD 0) (takenScan parse tnow excludeClientId minHours bookings)

/-- Loop body of logic.filter_available_times for one candidate slot, with
the source's continue-guards in order: the slot must parse, lie strictly
after now, strictly after the display horizon, and not be contained in
`taken`; then the pair `(dt, t)` is collected as in the source. -/
def availEntry (parse : Str → Option Time) (cfg : Config) (tnow : Time)
    (taken : List Str) (t : Str) : Option (Time × Str) :=
  match parse t with
  | none => none
  | some dt =>
    if dt ≤ tnow then none
    else if dt ≤ tnow + 60 * cfg.displayMinHours then none
    else if t ∈ taken then none
    else some (dt, t)

/-- Scan loop of logic.filter_available_times over the slot catalog. -/
def availScan (parse : Str → Option Time) (cfg : Config) (tnow : Time)
    (taken : List Str) (allTimes : List Str) : List (Time × Str) :=
  allTimes.filterMap (availEntry parse cfg tnow taken)

/-- logic.filter_available_times: scan, sort ascending by parsed time, strip
the time component. -/
def filter_available_times (parse : Str → Option Time) (cfg : Config) (tnow : Time)
    (allTimes : List Str) (taken : List Str) : List Str :=
  (sortByKey Prod.fst (availScan parse cfg tnow taken allTimes)).map Prod.snd

/-- Next booking id computed by Sheets.add_booking: `max(ids) + 1` over the
integer-valued id cells, `1` when there are none (in the model every row
carries an integer id, so the fallback branches coincide). -/
def nextBookingId (rows : List BookingRow) : Nat :=
  (rows.map BookingRow.id).foldl max 0 + 1

/-- Sheets.add_booking: append a fresh row with the next id, the client id,
the combined date-time cell (the source recombines the split date and time
of the chosen slot text into the same string) and status Не подтверждена. -/
def add_booking (rows : List BookingRow) (idClient : Str) (slot : Str) : List BookingRow :=
  rows ++ [{ id := nextBookingId rows, clientId := idClient, slot := slot,
             status := BStatus.unconfirmed }]

/-- Sheets.remove_booking_by_client: delete the first row whose client-id
cell equals the given client id and return its date-time cell; `(none, rows)`
when no row matches. -/
def remove_booking_by_client (rows : List BookingRow) (clientId : Str) :
    Option Str × List BookingRow :=
  match rows with
  | [] => (none, [])
  | r :: rest =>
    if r.clientId = clientId then (some r.slot, rest)
    else
      let p := remove_booking_by_client rest clientId
      (p.1, r :: p.2)

/-- Sheets.add_catch: refuse when the desired slot does not parse or when
`now() >= dt - timedelta(hours=UNAVAILABLE_BEFORE_HOURS)`; otherwise append
one catch row with the notified cell Нет and report success. -/
def add_catch (parse : Str → Option Time) (cfg : Config) (tnow : Time)
    (queue : List CatchRow) (userId : Nat) (desiredTime : Str)
    (service : Str) (idClient : Str) (chatId : Nat) : Bool × List CatchRow :=
  match parse desiredTime with
  | none => (false, queue)
  | some dt =>
    if tnow ≥ dt - 60 * cfg.unavailableBeforeHours then (false, queue)
    else (true, queue ++ [{ userId := some userId, time := desiredTime,
                            clientId := idClient, service := service,
                            notified := false, created := tnow, chat := some chatId }])

/-- Indexed scan behind Sheets.get_catch_for_time, carrying the running
sheet row index (the source enumerates from 2). -/
def catchMatches (t : Str) : List CatchRow → Nat → List (Nat × CatchRow)
  | [], _ => []
  | r :: rest, i =>
    if r.time = t ∧ r.notified = false then (i, r) :: catchMatches t rest (i + 1)
    else catchMatches t rest (i + 1)

/-- Sheets.get_catch_for_time: all catch rows for exactly this slot whose
notified cell is still Нет (or empty), with their sheet row indices. -/
def get_catch_for_time (queue : List CatchRow) (desiredTime : Str) : List (Nat × CatchRow) :=
  catchMatches desiredTime queue 2

/-- Update at a list position (helper for the sheet cell updates, which
address rows by index). -/
def setNotifiedAt : List CatchRow → Nat → List CatchRow
  | [], _ => []
  | r :: rest, 0 => { r with notified := true } :: rest
  | r :: rest, i + 1 => r :: setNotifiedAt rest i

/-- Sheets.mark_catch_notified: write Да into the notified cell of the row
at sheet index `idx` (sheet index 2 is list position 0). -/
def mark_catch_notified (queue : List CatchRow) (idx : Nat) : List CatchRow :=
  setNotifiedAt queue (idx - 2)

/-- Remove the element at a list position; out-of-range indices leave the
list unchanged (gspread delete of a missing row raises, which callers
swallow). -/
def eraseAt : List α → Nat → List α
  | [], _ => []
  | _ :: rest, 0 => rest
  | r :: rest, i + 1 => r :: eraseAt rest i

/-- Sheets.delete_catch: delete the catch row at sheet index `idx`. -/
def delete_catch (queue : List CatchRow) (idx : Nat) : List CatchRow :=
  eraseAt queue (idx - 2)

/-- Lookup in the in-memory holds dict (`holds.get(uid)`). -/
def holdsGet (holds : List (Nat × Hold)) (uid : Nat) : Option Hold :=
  (holds.find? (fun p => p.1 == uid)).map Prod.snd

/-- Removal from the in-memory holds dict (`holds.pop(uid, None)`). -/
def holdsPop (holds : List (Nat × Hold)) (uid : Nat) : List (Nat × Hold) :=
  holds.filter (fun p => p.1 != uid)

/-- Assignment into the in-memory holds dict (`holds[uid] = ...`), keeping
the key unique. -/
def holdsSet (holds : List (Nat × Hold)) (uid : Nat) (h : Hold) : List (Nat × Hold) :=
  holdsPop holds uid ++ [(uid, h)]

/-- Recursion of handlers.notify_catchers_for_time, written with an explicit
recursion-depth bound.  Every recursive self-call in the source happens
right after the selected catch row has been deleted, so the queue length
strictly decreases along the recursion and `queue.length + 1` units of fuel
are never exhausted (theorem notifyFuel_fixed below); the zero-fuel branch
is unreachable from notify_catchers_for_time.  Branches in source order:
no pending candidate → return; `int(row[0])` fails → delete row, recurse;
mark the row notified; the freed slot fails to parse → delete row, recurse;
claim window `min(timedelta(minutes=30), dt - now() - timedelta(hours=UNAVAILABLE_BEFORE_HOURS))`
not positive → delete row, recurse; create the hold and send the prompt;
delivery failure → delete row, drop the hold, recurse.  The literal 30 is
the source's hard-coded `timedelta(minutes=30)` (config.CATCH_WINDOW_MIN is
never imported by handlers.py). -/
def notifyFuel (parse : Str → Option Time) (cfg : Config) (deliver : Nat → Bool)
    (tnow : Time) (freedTime : Str) : Nat → SysState → SysState
  | 0, σ => σ
  | fuel + 1, σ =>
    match get_catch_for_time σ.queue freedTime with
    | [] => σ
    | (idx, row) :: _ =>
      match row.userId with
      | none =>
        notifyFuel parse cfg deliver tnow freedTime fuel
          { σ with queue := delete_catch σ.queue idx }
      | some uid =>
        let chat := row.chat.getD uid
        let q2 := mark_catch_notified σ.queue idx
        match parse freedTime with
        | none =>
          notifyFuel parse cfg deliver tnow freedTime fuel
            { σ with queue := delete_catch q2 idx }
        | some dt =>
          let claimWindow : Time := min 30 (dt - tnow - 60 * cfg.unavailableBeforeHours)
          if claimWindow ≤ 0 then
            notifyFuel parse cfg deliver tnow freedTime fuel
              { σ with queue := delete_catch q2 idx }
          else
            let hold : Hold := { time := freedTime, expires := tnow + claimWindow,
                                 service := row.service, row := idx }
            let σ2 := { σ with queue := q2, holds := holdsSet σ.holds uid hold }
            if deliver chat then σ2
            else
              notifyFuel parse cfg deliver tnow freedTime fuel
                { σ2 with queue := delete_catch q2 idx, holds := holdsPop σ2.holds uid }

/-- handlers.notify_catchers_for_time acting on the process state.  The
catch-queue and holds are read fresh at every recursion step of the source;
state threading captures that. -/
def notify_catchers_for_time (parse : Str → Option Time) (cfg : Config)
    (deliver : Nat → Bool) (tnow : Time) (freedTime : Str) (σ : SysState) : SysState :=
  notifyFuel parse cfg deliver tnow freedTime (σ.queue.length + 1) σ

/-- Outcomes of the booking branch of handlers.message_handler. -/
inductive BookResult where
  | alreadyBooked
  | invalidTime
  | booked
deriving DecidableEq

/-- Test `dt > now()` guarded by a successful parse, the future-slot check
shared by the already-booked guard and the active-booking notion. -/
def slotFuture (parse : Str → Option Time) (tnow : Time) (slot : Str) : Bool :=
  match parse slot with
  | some dt => decide (tnow < dt)
  | none => false

/-- Guard of the Записаться branch of handlers.message_handler: the client
is refused when some booking row carries their client id and a parseable
date-time cell strictly after now (no status filter appears in the
source). -/
def bookGuardBusy (parse : Str → Option Time) (tnow : Time)
    (bookings : List BookingRow) (clientId : Str) : Bool :=
  bookings.any (fun b => b.clientId == clientId && slotFuture parse tnow b.slot)

/-- Booking flow of handlers.message_handler, taken atomically: the
already-booked guard at menu entry, then the re-derived free list at time
choice, then Sheets.add_booking (admin notification is fire-and-forget and
elided). -/
def bookOp (parse : Str → Option Time) (cfg : Config) (allTimes : List Str)
    (tnow : Time) (clientId : Str) (slot : Str) (σ : SysState) :
    BookResult × SysState :=
  if bookGuardBusy parse tnow σ.bookings clientId then (BookResult.alreadyBooked, σ)
  else
    if slot ∈ filter_available_times parse cfg tnow allTimes
        (get_taken_times parse tnow none none σ.bookings) then
      (BookResult.booked, { σ with bookings := add_booking σ.bookings clientId slot })
    else (BookResult.invalidTime, σ)

/-- Cancellation branch (Отменить запись) of handlers.message_handler:
Sheets.remove_booking_by_client, then notify_catchers_for_time on the freed
date-time cell when a row was deleted. -/
def cancelOp (parse : Str → Option Time) (cfg : Config) (deliver : Nat → Bool)
    (tnow : Time) (clientId : Str) (σ : SysState) : Option Str × SysState :=
  match remove_booking_by_client σ.bookings clientId with
  | (some freed, rows) =>
    (some freed,
      notify_catchers_for_time parse cfg deliver tnow freed { σ with bookings := rows })
  | (none, rows) => (none, { σ with bookings := rows })

/-- Catch-queue addition (the Да, добавить branch of
handlers.message_handler): the offer is only reachable for a slot currently
reported taken, then Sheets.add_catch runs. -/
def addCatchOp (parse : Str → Option Time) (cfg : Config) (tnow : Time)
    (uid : Nat) (desiredTime : Str) (service : Str) (idClient : Str)
    (chatId : Nat) (σ : SysState) : Bool × SysState :=
  if desiredTime ∈ get_taken_times parse tnow none none σ.bookings then
    ((add_catch parse cfg tnow σ.queue uid desiredTime service idClient chatId).1,
      { σ with queue :=
          (add_catch parse cfg tnow σ.queue uid desiredTime service idClient chatId).2 })
  else (false, σ)

/-- Replies of the claim branch of handlers.catch_claim_cb, in source
order: Истекло, Успели, Неверный формат, Слишком поздно, Зарегистрируйтесь,
Успешно. -/
inductive ClaimResult where
  | expired
  | slotTaken
  | badFormat
  | tooLate
  | unregistered
  | success
deriving DecidableEq

/-- Claim branch of handlers.catch_claim_cb.  `uidClient` resolves a
telegram user id to the registered client id (the `registered` cache).  On
success the source deletes the claimant's first booking row and discards
the returned freed slot, adds the new booking, pops the hold, deletes the
catch row the hold points at, and then runs notify_catchers_for_time on
`desired` — the slot that was just claimed. -/
def claimOp (parse : Str → Option Time) (cfg : Config) (deliver : Nat → Bool)
    (uidClient : Nat → Option Str) (tnow : Time) (uid : Nat) (desired : Str)
    (σ : SysState) : ClaimResult × SysState :=
  match holdsGet σ.holds uid with
  | none => (ClaimResult.expired, σ)
  | some hold =>
    if hold.time ≠ desired then (ClaimResult.expired, σ)
    else if desired ∈ get_taken_times parse tnow none none σ.bookings then
      (ClaimResult.slotTaken, { σ with holds := holdsPop σ.holds uid })
    else
      match parse desired with
      | none => (ClaimResult.badFormat, { σ with holds := holdsPop σ.holds uid })
      | some dt =>
        if dt ≤ tnow + 60 * cfg.unavailableBeforeHours then
          (ClaimResult.tooLate, { σ with holds := holdsPop σ.holds uid })
        else
          match uidClient uid with
          | none => (ClaimResult.unregistered, σ)
          | some clientId =>
            (ClaimResult.success,
              notify_catchers_for_time parse cfg deliver tnow desired
                { σ with
                  bookings :=
                    add_booking (remove_booking_by_client σ.bookings clientId).2
                      clientId desired,
                  holds := holdsPop σ.holds uid,
                  queue := delete_catch σ.queue hold.row })

/-- Decline branch of handlers.catch_claim_cb: delete the catch row named
in the callback payload (when present), pop the caller's hold
unconditionally, then run notify_catchers_for_time on the declined slot. -/
def declineOp (parse : Str → Option Time) (cfg : Config) (deliver : Nat → Bool)
    (tnow : Time) (uid : Nat) (desired : Str) (rid : Option Nat)
    (σ : SysState) : SysState :=
  match rid with
  | some r =>
    notify_catchers_for_time parse cfg deliver tnow desired
      { σ with queue := delete_catch σ.queue r, holds := holdsPop σ.holds uid }
  | none =>
    notify_catchers_for_time parse cfg deliver tnow desired
      { σ with holds := holdsPop σ.holds uid }

/-- Hold-expiry pass of background.background_tasks: pop every hold with
`now() >= expires` (the lapse message to the holder is elided). -/
def sweepExpire (tnow : Time) (σ : SysState) : SysState :=
  { σ with holds := σ.holds.filter (fun p => decide (tnow < p.2.expires)) }

/-- Auto-cancellation condition of the sweep's booking pass: status cell
Не подтверждена and `now() >= dt - timedelta(hours=UNAVAILABLE_BEFORE_HOURS)`
(rows whose date-time cell does not parse raise and are skipped). -/
def autoCancelRow (parse : Str → Option Time) (cfg : Config) (tnow : Time)
    (r : BookingRow) : Bool :=
  r.status == BStatus.unconfirmed &&
    match parse r.slot with
    | some dt => decide (tnow ≥ dt - 60 * cfg.unavailableBeforeHours)
    | none => false

/-- Write a status into the booking row at a list position. -/
def setStatusAt : List BookingRow → Nat → BStatus → List BookingRow
  | [], _, _ => []
  | r :: rest, 0, st => { r with status := st } :: rest
  | r :: rest, i + 1, st => r :: setStatusAt rest i st

/-- Booking pass of background.background_tasks over the snapshot read at
the start of the tick: auto-cancel each overdue unconfirmed row in place
and immediately run notify_catchers_for_time on its date-time cell.  The
reminder branch is elided: it only writes the reminder column and sends
messages, neither of which any later read depends on. -/
def sweepCancelGo (parse : Str → Option Time) (cfg : Config) (deliver : Nat → Bool)
    (tnow : Time) : List BookingRow → Nat → SysState → SysState
  | [], _, σ => σ
  | r :: rest, i, σ =>
    if autoCancelRow parse cfg tnow r then
      let σ2 := { σ with bookings := setStatusAt σ.bookings i BStatus.cancelled }
      let σ3 := notify_catchers_for_time parse cfg deliver tnow r.slot σ2
      sweepCancelGo parse cfg deliver tnow rest (i + 1) σ3
    else
      sweepCancelGo parse cfg deliver tnow rest (i + 1) σ

/-- Booking pass of one sweep tick, started on the current bookings. -/
def sweepCancel (parse : Str → Option Time) (cfg : Config) (deliver : Nat → Bool)
    (tnow : Time) (σ : SysState) : SysState :=
  sweepCancelGo parse cfg deliver tnow σ.bookings 0 σ

/-- background.mark_past_bookings: every row whose date-time cell parses to
a time strictly before now and whose status cell is neither Отменена nor
Прошедшая is marked Прошедшая. -/
def mark_past_bookings (parse : Str → Option Time) (tnow : Time) (σ : SysState) : SysState :=
  { σ with bookings := σ.bookings.map (fun r =>
      match parse r.slot with
      | some dt =>
        if dt < tnow ∧ r.status ≠ BStatus.cancelled ∧ r.status ≠ BStatus.past then
          { r with status := BStatus.past }
        else r
      | none => r) }

/-- One tick of background.background_tasks, in source order: expire stale
holds, run the booking pass (auto-cancel and requeue), mark elapsed
bookings Прошедшая. -/
def sweepTick (parse : Str → Option Time) (cfg : Config) (deliver : Nat → Bool)
    (tnow : Time) (σ : SysState) : SysState :=
  mark_past_bookings parse tnow (sweepCancel parse cfg deliver tnow (sweepExpire tnow σ))

/-- Stamp the wall clock of the operation that produced a state. -/
def setClock (tnow : Time) (σ : SysState) : SysState :=
  { σ with clock := tnow }

/-- User-triggered and time-triggered transitions of the system: the
booking flow (including its catch-queue offer), cancellation, claim,
decline and the background sweep, each run at some wall-clock time not
before the previous operation. -/
inductive Step (parse : Str → Option Time) (cfg : Config) (allTimes : List Str)
    (deliver : Nat → Bool) (uidClient : Nat → Option Str) :
    SysState → SysState → Prop
  | book (tnow : Time) (clientId slot : Str) (σ : SysState) :
      σ.clock ≤ tnow →
      Step parse cfg allTimes deliver uidClient σ
        (setClock tnow (bookOp parse cfg allTimes tnow clientId slot σ).2)
  | cancel (tnow : Time) (clientId : Str) (σ : SysState) :
      σ.clock ≤ tnow →
      Step parse cfg allTimes deliver uidClient σ
        (setClock tnow (cancelOp parse cfg deliver tnow clientId σ).2)
  | catchAdd (tnow : Time) (uid : Nat) (desired service idClient : Str) (chatId : Nat)
      (σ : SysState) :
      σ.clock ≤ tnow →
      Step parse cfg allTimes deliver uidClient σ
        (setClock tnow (addCatchOp parse cfg tnow uid desired service idClient chatId σ).2)
  | claim (tnow : Time) (uid : Nat) (desired : Str) (σ : SysState) :
      σ.clock ≤ tnow →
      Step parse cfg allTimes deliver uidClient σ
        (setClock tnow (claimOp parse cfg deliver uidClient tnow uid desired σ).2)
  | decline (tnow : Time) (uid : Nat) (desired : Str) (rid : Option Nat) (σ : SysState) :
      σ.clock ≤ tnow →
      Step parse cfg allTimes deliver uidClient σ
        (setClock tnow (declineOp parse cfg deliver tnow uid desired rid σ))
  | sweep (tnow : Time) (σ : SysState) :
      σ.clock ≤ tnow →
      Step parse cfg allTimes deliver uidClient σ
        (setClock tnow (sweepTick parse cfg deliver tnow σ))

/-- Empty store and no holds: the state before any operation. -/
def initState : SysState :=
  { bookings := [], queue := [], holds := [], clock := 0 }

/-- States the system can reach from the empty initial state. -/
def Reachable (parse : Str → Option Time) (cfg : Config) (allTimes : List Str)
    (deliver : Nat → Bool) (uidClient : Nat → Option Str) (σ : SysState) : Prop :=
  Relation.ReflTransGen (Step parse cfg allTimes deliver uidClient) initState σ

/-- Transitions of the waitlist arbiter viewed on its own: a notification
run for some freed slot, a claim, a decline, and the sweep's hold-expiry
pass. -/
inductive WaitlistStep (parse : Str → Option Time) (cfg : Config)
    (deliver : Nat → Bool) (uidClient : Nat → Option Str) :
    SysState → SysState → Prop
  | notifyFreed (tnow : Time) (freedTime : Str) (σ : SysState) :
      σ.clock ≤ tnow →
      WaitlistStep parse cfg deliver uidClient σ
        (setClock tnow (notify_catchers_for_time parse cfg deliver tnow freedTime σ))
  | claim (tnow : Time) (uid : Nat) (desired : Str) (σ : SysState) :
      σ.clock ≤ tnow →
      WaitlistStep parse cfg deliver uidClient σ
        (setClock tnow (claimOp parse cfg deliver uidClient tnow uid desired σ).2)
  | decline (tnow : Time) (uid : Nat) (desired : Str) (rid : Option Nat) (σ : SysState) :
      σ.clock ≤ tnow →
      WaitlistStep parse cfg deliver uidClient σ
        (setClock tnow (declineOp parse cfg deliver tnow uid desired rid σ))
  | expire (tnow : Time) (σ : SysState) :
      σ.clock ≤ tnow →
      WaitlistStep parse cfg deliver uidClient σ
        (setClock tnow (sweepExpire tnow σ))

/-- States the waitlist arbiter can reach from a state with no outstanding
holds. -/
def WaitlistReachable (parse : Str → Option Time) (cfg : Config)
    (deliver : Nat → Bool) (uidClient : Nat → Option Str)
    (start σ : SysState) : Prop :=
  start.holds = [] ∧
    Relation.ReflTransGen (WaitlistStep parse cfg deliver uidClient) start σ

/-- Fixture slot dictionary for the concrete witnesses: codes 1–4 stand for
four well-formed slot strings with the given parse times (minutes); every
other code stands for a malformed or empty cell. -/
def parse0 : Str → Option Time := fun s =>
  if s = 1 then some 10000
  else if s = 2 then some 30000
  else if s = 3 then some 40000
  else if s = 4 then some 1480
  else none

/-- Default configuration of config.py: UNAVAILABLE_BEFORE_HOURS=24,
DISPLAY_MIN_HOURS=28, CATCH_MIN_HOURS=36, CATCH_WINDOW_MIN=30. -/
def cfg0 : Config :=
  { unavailableBeforeHours := 24, displayMinHours := 28, catchMinHours := 36,
    catchWindowMin := 30 }

/-- Fixture slot catalog (the ВремяЗаписей sheet). -/
def allTimes0 : List Str := [1, 2, 3]

/-- Fixture messaging transport on which every send succeeds. -/
def deliver0 : Nat → Bool := fun _ => true

/-- Fixture registration cache: telegram user 100 is client 10, user 200 is
client 20, user 300 is client 30. -/
def uidClient0 : Nat → Option Str := fun u =>
  if u = 100 then some 10 else if u = 200 then some 20
  else if u = 300 then some 30 else none

/-- Configuration with the catch-claim window set to 45 minutes via the
CATCH_WINDOW_MIN environment knob. -/
def cfg45 : Config := { cfg0 with catchWindowMin := 45 }

/-- Start state for the hold-expiry counterexample: client 10 (user 100)
waits on slot 3, nothing else pending. -/
def c3Start : SysState :=
  { bookings := [],
    queue := [{ userId := some 100, time := 3, clientId := 10, service := 0,
                notified := false, created := 0, chat := some 100 }],
    holds := [], clock := 0 }

/-- State after slot 3 is freed at minute 10000 and user 100 is notified:
the hold expires at minute 10030. -/
def c3Held : SysState := notify_catchers_for_time parse0 cfg0 deliver0 10000 3 c3Start

/-- Start state for the claim-target divergence: client 10 (user 100) holds
a valid claim on freed slot 3 and has a prior booking on slot 2, while
client 30 (user 300) waits in the catch queue for slot 2. -/
def c4State : SysState :=
  { bookings := [{ id := 1, clientId := 10, slot := 2, status := BStatus.unconfirmed }],
    queue := [{ userId := some 300, time := 2, clientId := 30, service := 0,
                notified := false, created := 0, chat := some 300 },
              { userId := some 100, time := 3, clientId := 10, service := 0,
                notified := true, created := 0, chat := some 100 }],
    holds := [(100, { time := 3, expires := 10034, service := 0, row := 3 })],
    clock := 10004 }

/-- Number of outstanding holds whose slot is `t`. -/
def holdsOnSlot (holds : List (Nat × Hold)) (t : Str) : Nat :=
  holds.countP (fun p => p.2.time == t)

/-- Start state for the double-hold counterexample: users 100 and 200 both
wait on slot 3 (entries created at minutes 0 and 5), no outstanding holds. -/
def c5Start : SysState :=
  { bookings := [],
    queue := [{ userId := some 100, time := 3, clientId := 10, service := 0,
                notified := false, created := 0, chat := some 100 },
              { userId := some 200, time := 3, clientId := 20, service := 0,
                notified := false, created := 5, chat := some 200 }],
    holds := [], clock := 0 }

/-- After a notification run for slot 3 at minute 10000: user 100 holds the
slot. -/
def c5Mid : SysState :=
  setClock 10000 (notify_catchers_for_time parse0 cfg0 deliver0 10000 3 c5Start)

/-- After a second notification run for slot 3 at minute 10001, before the
first hold is resolved or expired: user 200 also holds the slot. -/
def c5End : SysState :=
  setClock 10001 (notify_catchers_for_time parse0 cfg0 deliver0 10001 3 c5Mid)

/-- Active booking row in the sense of the invariant (spec section 3): the
date-time cell parses strictly after now and the status is not Cancelled. -/
def isActive (parse : Str → Option Time) (tnow : Time) (r : BookingRow) : Bool :=
  slotFuture parse tnow r.slot && !(r.status == BStatus.cancelled)

/-- Number of active booking rows belonging to one client. -/
def activeCount (parse : Str → Option Time) (tnow : Time)
    (rows : List BookingRow) (clientId : Str) : Nat :=
  rows.countP (fun r => r.clientId == clientId && isActive parse tnow r)

/-- Condition under which the claim flow's delete-first-row step removes
the right row: the client's first booking row in store order is active, or
the client has no row at all. -/
def firstRowGood (parse : Str → Option Time) (tnow : Time)
    (rows : List BookingRow) (clientId : Str) : Bool :=
  match rows.find? (fun r => r.clientId == clientId) with
  | none => true
  | some r => isActive parse tnow r

/-- Trace for the double-booking counterexample, step 1: client 10 books
slot 1 on the empty store at minute 0. -/
def c2t0 : SysState := setClock 0 (bookOp parse0 cfg0 allTimes0 0 10 1 initState).2

/-- Step 2: the sweep at minute 8560 (24h before slot 1) auto-cancels the
still unconfirmed booking, leaving the row with status Отменена. -/
def c2t1 : SysState := setClock 8560 (sweepTick parse0 cfg0 deliver0 8560 c2t0)

/-- Step 3: after slot 1 has passed, client 10 books slot 2 at minute
10001; the stale cancelled row no longer blocks the already-booked guard. -/
def c2t2 : SysState := setClock 10001 (bookOp parse0 cfg0 allTimes0 10001 10 2 c2t1).2

/-- Step 4: client 20 books slot 3 at minute 10002. -/
def c2t3 : SysState := setClock 10002 (bookOp parse0 cfg0 allTimes0 10002 20 3 c2t2).2

/-- Step 5: client 10 (user 100) joins the catch queue for the taken slot 3
at minute 10003. -/
def c2t4 : SysState :=
  setClock 10003 (addCatchOp parse0 cfg0 10003 100 3 0 10 100 c2t3).2

/-- Step 6: client 20 cancels at minute 10004, freeing slot 3; user 100 is
notified and granted a hold. -/
def c2t5 : SysState := setClock 10004 (cancelOp parse0 cfg0 deliver0 10004 20 c2t4).2

/-- Step 7: user 100 claims slot 3 at minute 10010.  The claim deletes the
FIRST row of client 10 — the stale cancelled slot-1 row — instead of the
active slot-2 booking, then books slot 3: client 10 ends with two active
bookings. -/
def c2t6 : SysState :=
  setClock 10010 (claimOp parse0 cfg0 deliver0 uidClient0 10010 100 3 c2t5).2

/-- State for the c2_preservation witness: client 10 has one active booking
on slot 2, and user 100 (client 10) holds freed slot 3. -/
def c2w : SysState :=
  { bookings := [{ id := 1, clientId := 10, slot := 2, status := BStatus.unconfirmed }],
    queue := [],
    holds := [(100, { time := 3, expires := 10034, service := 0, row := 2 })],
    clock := 10000 }

theorem mem_sortedInsert (key : α → Int) (a x : α) (l : List α) :
    x ∈ sortedInsert key a l ↔ x = a ∨ x ∈ l := by
  induction l with
  | nil => simp [sortedInsert]
  | cons b bs ih =>
    simp only [sortedInsert]
    split
    · simp only [List.mem_cons, ih]
      tauto
    · simp only [List.mem_cons]

theorem mem_sortByKey (key : α → Int) (x : α) (l : List α) :
    x ∈ sortByKey key l ↔ x ∈ l := by
  suffices h : ∀ acc, x ∈ l.foldl (fun acc a => sortedInsert key a acc) acc ↔
      x ∈ acc ∨ x ∈ l by
    simpa [sortByKey] using h []
  induction l with
  | nil => simp
  | cons a as ih =>
    intro acc
    simp only [List.foldl_cons, ih, mem_sortedInsert, List.mem_cons]
    tauto

theorem takenEntry_eq_some (parse : Str → Option Time) (tnow : Time)
    (excludeClientId : Option Str) (minHours : Option Int)
    (b : BookingRow) (s : Str) :
    takenEntry parse tnow excludeClientId minHours b = some s ↔
      b.slot = s ∧ ∃ dt, parse b.slot = some dt ∧ tnow < dt ∧
        minHoursSkip tnow minHours dt = false ∧
        excludeSkip excludeClientId b.clientId = false := by
  cases hp : parse b.slot with
  | none => simp [takenEntry, hp]
  | some dt =>
    simp only [takenEntry, hp]
    split_ifs with h1 h2 h3 <;> simp_all

theorem mem_get_taken_times (parse : Str → Option Time) (tnow : Time)
    (excludeClientId : Option Str) (minHours : Option Int)
    (bookings : List BookingRow) (s : Str) :
    s ∈ get_taken_times parse tnow excludeClientId minHours bookings ↔
      ∃ b ∈ bookings, b.slot = s ∧ ∃ dt, parse b.slot = some dt ∧ tnow < dt ∧
        minHoursSkip tnow minHours dt = false ∧
        excludeSkip excludeClientId b.clientId = false := by
  rw [get_taken_times, mem_sortByKey, takenScan, List.mem_filterMap]
  constructor
  · rintro ⟨b, hb, he⟩
    exact ⟨b, hb, (takenEntry_eq_some parse tnow excludeClientId minHours b s).mp he⟩
  · rintro ⟨b, hb, hprops⟩
    exact ⟨b, hb, (takenEntry_eq_some parse tnow excludeClientId minHours b s).mpr hprops⟩

theorem availEntry_some_bound (parse : Str → Option Time) (cfg : Config) (tnow : Time)
    (taken : List Str) (t : Str) (x : Time × Str)
    (h : availEntry parse cfg tnow taken t = some x) :
    parse t = some x.1 ∧ x.2 = t ∧ ¬ x.1 ≤ tnow + 60 * cfg.displayMinHours := by
  cases hp : parse t with
  | none => simp [availEntry, hp] at h
  | some dt =>
    simp only [availEntry, hp] at h
    split_ifs at h with h1 h2 h3
    injection h with h4
    subst h4
    exact ⟨rfl, rfl, h2⟩

/-- C1 (amended): for every list of booking rows and every slot, the slot
is in the taken set computed by get_taken_times with no exclusion and no
min-hours iff some booking row of any status has that slot as its
date-time cell and the cell parses to a time strictly after now.  The
original claim's restriction to statuses Unconfirmed and Confirmed fails
on the source, which never reads the status cell here (see
c1_counterexample). -/
theorem c1_taken_iff_some_row (parse : Str → Option Time) (tnow : Time)
    (bookings : List BookingRow) (s : Str) :
    s ∈ get_taken_times parse tnow none none bookings ↔
      ∃ b ∈ bookings, b.slot = s ∧ ∃ dt, parse s = some dt ∧ tnow < dt := by
  rw [mem_get_taken_times]
  constructor
  · rintro ⟨b, hb, rfl, dt, hdt, hlt, -, -⟩
    exact ⟨b, hb, rfl, dt, hdt, hlt⟩
  · rintro ⟨b, hb, rfl, dt, hdt, hlt⟩
    exact ⟨b, hb, rfl, dt, hdt, hlt, rfl, rfl⟩

/-- C1 fails as stated on the source: a single Cancelled booking row with a
future slot puts the slot into the taken set of get_taken_times although no
row with status Unconfirmed or Confirmed carries it. -/
theorem c1_counterexample :
    (1 : Str) ∈ get_taken_times parse0 0 none none
        [{ id := 1, clientId := 10, slot := 1, status := BStatus.cancelled }] ∧
      ∀ b ∈ [({ id := 1, clientId := 10, slot := 1,
                status := BStatus.cancelled } : BookingRow)],
        b.status ≠ BStatus.unconfirmed ∧ b.status ≠ BStatus.confirmed := by
  decide

/-- C8: the free list never contains a slot at or before the display
horizon — membership in filter_available_times forces the slot's parsed
time strictly beyond now plus DISPLAY_MIN_HOURS hours, for every catalog,
taken set and configuration. -/
theorem c8_display_horizon (parse : Str → Option Time) (cfg : Config) (tnow : Time)
    (allTimes taken : List Str) (t : Str) (dt : Time)
    (hmem : t ∈ filter_available_times parse cfg tnow allTimes taken)
    (hp : parse t = some dt) :
    ¬ dt ≤ tnow + 60 * cfg.displayMinHours := by
  rw [filter_available_times] at hmem
  rcases List.mem_map.mp hmem with ⟨x, hx, rfl⟩
  rw [mem_sortByKey] at hx
  rcases List.mem_filterMap.mp hx with ⟨t0, ht0, he⟩
  rcases availEntry_some_bound parse cfg tnow taken t0 x he with ⟨hp0, hx2, hb⟩
  rw [← hx2] at hp0
  rw [hp0] at hp
  injection hp with hdt
  rw [← hdt]
  exact hb

/-- Witness for c8_display_horizon: slot 1 of the fixture catalog is listed
free at time 0 and its parse time 10000 clears the display horizon. -/
theorem c8_witness :
    (1 : Str) ∈ filter_available_times parse0 cfg0 0 allTimes0 [] ∧
      parse0 1 = some 10000 ∧
      ¬ (10000 : Time) ≤ 0 + 60 * cfg0.displayMinHours :=
  ⟨by decide, by decide,
    c8_display_horizon parse0 cfg0 0 allTimes0 [] 1 10000 (by decide) (by decide)⟩

theorem remove_booking_append_no_match (rows1 rows2 : List BookingRow) (clientId : Str)
    (h : ∀ r ∈ rows1, r.clientId ≠ clientId) :
    remove_booking_by_client (rows1 ++ rows2) clientId =
      ((remove_booking_by_client rows2 clientId).1,
        rows1 ++ (remove_booking_by_client rows2 clientId).2) := by
  induction rows1 with
  | nil => simp
  | cons r rest ih =>
    have hr : r.clientId ≠ clientId := h r (by simp)
    simp only [List.cons_append, remove_booking_by_client, if_neg hr, List.append_eq]
    rw [ih (fun x hx => h x (by simp [hx]))]

/-- C9: for a client with no booking row, Sheets.add_booking of slot s
followed immediately by Sheets.remove_booking_by_client returns the freed
slot s, restores the original rows, and leaves the client with no booking
row at all — hence zero active bookings. -/
theorem c9_book_cancel_roundtrip (rows : List BookingRow) (clientId slot : Str)
    (hnone : ∀ r ∈ rows, r.clientId ≠ clientId) :
    remove_booking_by_client (add_booking rows clientId slot) clientId = (some slot, rows) ∧
      ∀ r ∈ (remove_booking_by_client (add_booking rows clientId slot) clientId).2,
        r.clientId ≠ clientId := by
  have h := remove_booking_append_no_match rows
      [{ id := nextBookingId rows, clientId := clientId, slot := slot,
         status := BStatus.unconfirmed }] clientId hnone
  rw [add_booking, h]
  simp only [remove_booking_by_client, if_pos rfl]
  exact ⟨by simp, fun r hr => hnone r (by simpa using hr)⟩

/-- Witness for c9_book_cancel_roundtrip on the empty store: booking client
10 on slot 3 and cancelling returns freed slot 3 and no remaining row. -/
theorem c9_witness :
    remove_booking_by_client (add_booking [] 10 3) 10 = (some 3, []) ∧
      ∀ r ∈ (remove_booking_by_client (add_booking [] 10 3) 10).2, r.clientId ≠ 10 :=
  c9_book_cancel_roundtrip [] 10 3 (by decide)

/-- C10: Sheets.add_catch returns False and appends no catch-queue row
exactly when the desired slot string fails to parse or now is at or past
slot time minus UNAVAILABLE_BEFORE_HOURS; in the remaining case — the slot
parses and now is still before that deadline — it returns True and appends
exactly one row whose notified cell is Нет. -/
theorem c10_add_catch_spec (parse : Str → Option Time) (cfg : Config) (tnow : Time)
    (queue : List CatchRow) (userId : Nat) (desiredTime service idClient : Str)
    (chatId : Nat) :
    (((add_catch parse cfg tnow queue userId desiredTime service idClient chatId).1 = false ∧
        (add_catch parse cfg tnow queue userId desiredTime service idClient chatId).2 = queue) ↔
      (parse desiredTime = none ∨
        ∃ dt, parse desiredTime = some dt ∧ dt - 60 * cfg.unavailableBeforeHours ≤ tnow)) ∧
      (∀ dt, parse desiredTime = some dt →
        tnow < dt - 60 * cfg.unavailableBeforeHours →
        add_catch parse cfg tnow queue userId desiredTime service idClient chatId =
          (true,
            queue ++ [{ userId := some userId, time := desiredTime, clientId := idClient,
                        service := service, notified := false, created := tnow,
                        chat := some chatId }])) := by
  cases hp : parse desiredTime with
  | none =>
    refine ⟨by simp [add_catch, hp], ?_⟩
    intro dt hdt
    exact absurd hdt (by simp [hp])
  | some dt =>
    by_cases hl : tnow ≥ dt - 60 * cfg.unavailableBeforeHours
    · refine ⟨?_, ?_⟩
      · simp [add_catch, hp, hl]
        linarith
      · intro dt2 hdt2 hlt2
        have he : dt2 = dt := by simpa using hdt2.symm
        subst he
        linarith
    · refine ⟨?_, ?_⟩
      · simp [add_catch, hp, hl]
        linarith
      · intro dt2 hdt2 hlt2
        simp [add_catch, hp, hl]

/-- Witness for c10_add_catch_spec: on the fixture dictionary, adding a
catch for slot 3 (parse time 40000) at time 0 — well before the deadline —
returns True and appends exactly the expected not-notified row. -/
theorem c10_witness :
    add_catch parse0 cfg0 0 [] 100 3 0 10 100 =
      (true,
        [] ++ [{ userId := some 100, time := 3, clientId := 10, service := 0,
                 notified := false, created := 0, chat := some 100 }]) :=
  (c10_add_catch_spec parse0 cfg0 0 [] 100 3 0 10 100).2 40000 (by decide) (by decide)

theorem holdsGet_filter_expired (hs : List (Nat × Hold)) (tnow : Time) (uid : Nat)
    (h : ∀ p ∈ hs, p.1 = uid → p.2.expires ≤ tnow) :
    holdsGet (hs.filter (fun p => decide (tnow < p.2.expires))) uid = none := by
  induction hs with
  | nil => simp [holdsGet]
  | cons p rest ih =>
    by_cases hk : tnow < p.2.expires
    · have hne : (p.1 == uid) = false := by
        refine beq_eq_false_iff_ne.mpr ?_
        intro he
        have hle := h p (by simp) he
        linarith
      rw [List.filter_cons_of_pos (by simpa using hk)]
      rw [holdsGet, List.find?_cons_of_neg _ (by simp [hne])]
      exact ih (fun q hq hq1 => h q (by simp [hq]) hq1)
    · rw [List.filter_cons_of_neg (by simpa using hk)]
      exact ih (fun q hq hq1 => h q (by simp [hq]) hq1)

/-- C3 (amended): a claim attempted after the background sweep's hold-expiry
pass has run at or past the hold's expiry is rejected with the stale-hold
reply (Истекло) and leaves the state — in particular the bookings table —
unchanged.  The claim handler itself never compares now() with the hold's
expires field, so before the sweep removes the hold a late claim can
succeed (see c3_counterexample); rejection of stale claims is provided by
the sweep's removal of the hold. -/
theorem c3_claim_after_expiry_sweep (parse : Str → Option Time) (cfg : Config)
    (deliver : Nat → Bool) (uidClient : Nat → Option Str)
    (tnow tclaim : Time) (uid : Nat) (desired : Str) (σ : SysState)
    (hexp : ∀ p ∈ σ.holds, p.1 = uid → p.2.expires ≤ tnow) :
    (claimOp parse cfg deliver uidClient tclaim uid desired (sweepExpire tnow σ)).1 =
        ClaimResult.expired ∧
      (claimOp parse cfg deliver uidClient tclaim uid desired (sweepExpire tnow σ)).2 =
        sweepExpire tnow σ := by
  have h : holdsGet (sweepExpire tnow σ).holds uid = none :=
    holdsGet_filter_expired σ.holds tnow uid hexp
  rw [claimOp, h]
  exact ⟨rfl, rfl⟩

/-- Witness for c3_claim_after_expiry_sweep at the concrete expired hold of
c3Held: after the sweep at minute 20000 the claim is rejected as stale. -/
theorem c3_witness :
    (claimOp parse0 cfg0 deliver0 uidClient0 20000 100 3 (sweepExpire 20000 c3Held)).1 =
        ClaimResult.expired ∧
      (claimOp parse0 cfg0 deliver0 uidClient0 20000 100 3 (sweepExpire 20000 c3Held)).2 =
        sweepExpire 20000 c3Held :=
  c3_claim_after_expiry_sweep parse0 cfg0 deliver0 uidClient0 20000 20000 100 3 c3Held
    (by decide)

/-- C3 fails as stated on the source: user 100 is granted a hold on slot 3
expiring at minute 10030, yet a claim at minute 20000 — long past the
expiry, before any sweep tick — succeeds and appends a booking row, because
the claim handler checks only hold existence, slot match, takenness and the
unavailability deadline, never expires. -/
theorem c3_counterexample :
    holdsGet c3Held.holds 100 =
        some { time := 3, expires := 10030, service := 0, row := 2 } ∧
      (10030 : Time) ≤ 20000 ∧
      (claimOp parse0 cfg0 deliver0 uidClient0 20000 100 3 c3Held).1 =
        ClaimResult.success ∧
      (claimOp parse0 cfg0 deliver0 uidClient0 20000 100 3 c3Held).2.bookings =
        [{ id := 1, clientId := 10, slot := 3, status := BStatus.unconfirmed }] := by
  decide

/-- C4: the source diverges from the claim at the final notification step.
Client 10 (user 100) claims freed slot 3 while holding a prior booking on
slot 2 and while client 30 waits in the catch queue for slot 2.  The claim
succeeds: the prior booking is deleted, the new booking on slot 3 is
created, the hold and the claimant's catch row are deleted — but
notify_catchers_for_time is run for slot 3 (the just-claimed, again-taken
slot), not for freed slot 2: client 30's entry stays un-notified and no
hold is created for user 300. -/
theorem c4_notify_wrong_slot :
    (claimOp parse0 cfg0 deliver0 uidClient0 10010 100 3 c4State).1 =
        ClaimResult.success ∧
      (claimOp parse0 cfg0 deliver0 uidClient0 10010 100 3 c4State).2.bookings =
        [{ id := 1, clientId := 10, slot := 3, status := BStatus.unconfirmed }] ∧
      (claimOp parse0 cfg0 deliver0 uidClient0 10010 100 3 c4State).2.queue =
        [{ userId := some 300, time := 2, clientId := 30, service := 0,
           notified := false, created := 0, chat := some 300 }] ∧
      holdsGet (claimOp parse0 cfg0 deliver0 uidClient0 10010 100 3 c4State).2.holds 300 =
        none := by
  decide

/-- C6: the source diverges from the claim under a non-default
CATCH_WINDOW_MIN.  With the window configured to 45 minutes and a freed
slot 40 minutes clear of the unavailability deadline, the granted hold
expires 30 minutes out — handlers.notify_catchers_for_time hard-codes
timedelta(minutes=30) and never reads config.CATCH_WINDOW_MIN — while the
claimed formula min(configured window, slot time - now -
unavailable_before_hours) gives 40. -/
theorem c6_hardcoded_window :
    holdsGet (notify_catchers_for_time parse0 cfg45 deliver0 0 4
        { bookings := [],
          queue := [{ userId := some 100, time := 4, clientId := 10, service := 0,
                      notified := false, created := 0, chat := some 100 }],
          holds := [], clock := 0 }).holds 100 =
      some { time := 4, expires := 30, service := 0, row := 2 } ∧
      min cfg45.catchWindowMin (1480 - 0 - 60 * cfg45.unavailableBeforeHours) = 40 ∧
      (30 : Time) ≠ 40 := by
  decide

theorem holdsOnSlot_pop_le (hs : List (Nat × Hold)) (uid : Nat) (t : Str) :
    holdsOnSlot (holdsPop hs uid) t ≤ holdsOnSlot hs t := by
  rw [holdsOnSlot, holdsOnSlot, holdsPop, List.countP_filter]
  exact List.countP_mono_left (fun x _ hx => by
    simp only [Bool.and_eq_true] at hx
    exact hx.1)

theorem holdsOnSlot_set_le (hs : List (Nat × Hold)) (uid : Nat) (h : Hold) (t : Str) :
    holdsOnSlot (holdsSet hs uid h) t ≤
      holdsOnSlot hs t + (if h.time = t then 1 else 0) := by
  have h1 := holdsOnSlot_pop_le hs uid t
  have h2 : List.countP (fun p : Nat × Hold => p.2.time == t) [(uid, h)] =
      if h.time = t then 1 else 0 := by
    by_cases he : h.time = t <;> simp [he, List.countP_cons]
  simp only [holdsOnSlot, holdsSet, List.countP_append] at *
  omega

theorem holdsPop_holdsSet (hs : List (Nat × Hold)) (uid : Nat) (h : Hold) :
    holdsPop (holdsSet hs uid h) uid = holdsPop hs uid := by
  rw [holdsSet, holdsPop, holdsPop, List.filter_append, List.filter_filter]
  have h1 : List.filter (fun p => p.1 != uid) [(uid, h)] = [] := by simp
  have h2 : (fun (p : Nat × Hold) => p.1 != uid && p.1 != uid) = fun p => p.1 != uid := by
    funext p
    exact Bool.and_self _
  rw [h1, h2, List.append_nil]

theorem holdsOnSlot_get_pop (hs : List (Nat × Hold)) (uid : Nat) (h : Hold) (t : Str)
    (hg : holdsGet hs uid = some h) (ht : h.time = t) :
    holdsOnSlot (holdsPop hs uid) t + 1 ≤ holdsOnSlot hs t := by
  induction hs with
  | nil => simp [holdsGet] at hg
  | cons p rest ih =>
    by_cases hk : (p.1 == uid) = true
    · have hfind : ((p :: rest).find? (fun q => q.1 == uid)) = some p := by
        rw [List.find?_cons, hk]
      rw [holdsGet, hfind] at hg
      have hp2 : p.2 = h := by simpa using hg
      have hdrop : (p.1 != uid) = false := by simp [bne, hk]
      have hpop : holdsPop (p :: rest) uid = holdsPop rest uid := by
        simp [holdsPop, List.filter_cons, hdrop]
      have hcnt : holdsOnSlot (p :: rest) t = holdsOnSlot rest t + 1 := by
        simp only [holdsOnSlot]
        exact List.countP_cons_of_pos _ _ (by simp [hp2, ht])
      rw [hpop, hcnt]
      have h1 := holdsOnSlot_pop_le rest uid t
      omega
    · have hkf : (p.1 == uid) = false := by simpa using hk
      have hfind : ((p :: rest).find? (fun q => q.1 == uid)) =
          rest.find? (fun q => q.1 == uid) := by
        rw [List.find?_cons, hkf]
      rw [holdsGet, hfind] at hg
      have ihh := ih hg
      have hkeep : (p.1 != uid) = true := by simp [bne, hkf]
      have hpop : holdsPop (p :: rest) uid = p :: holdsPop rest uid := by
        simp [holdsPop, List.filter_cons, hkeep]
      rw [hpop]
      simp only [holdsOnSlot] at ihh ⊢
      rw [List.countP_cons, List.countP_cons]
      omega

theorem notifyFuel_bookings (parse : Str → Option Time) (cfg : Config)
    (deliver : Nat → Bool) (tnow : Time) (freedTime : Str) :
    ∀ fuel σ, (notifyFuel parse cfg deliver tnow freedTime fuel σ).bookings = σ.bookings := by
  intro fuel
  induction fuel with
  | zero => intro σ; rfl
  | succ n ih =>
    intro σ
    rw [notifyFuel]
    dsimp only
    split
    · rfl
    · split
      · exact ih _
      · split
        · exact ih _
        · split
          · exact ih _
          · split
            · rfl
            · exact ih _

theorem notify_bookings (parse : Str → Option Time) (cfg : Config)
    (deliver : Nat → Bool) (tnow : Time) (freedTime : Str) (σ : SysState) :
    (notify_catchers_for_time parse cfg deliver tnow freedTime σ).bookings = σ.bookings :=
  notifyFuel_bookings parse cfg deliver tnow freedTime _ σ

theorem notifyFuel_holdsOnSlot (parse : Str → Option Time) (cfg : Config)
    (deliver : Nat → Bool) (tnow : Time) (freedTime t : Str) :
    ∀ fuel σ, holdsOnSlot (notifyFuel parse cfg deliver tnow freedTime fuel σ).holds t ≤
      holdsOnSlot σ.holds t + (if freedTime = t then 1 else 0) := by
  intro fuel
  induction fuel with
  | zero =>
    intro σ
    rw [notifyFuel]
    omega
  | succ n ih =>
    intro σ
    rw [notifyFuel]
    dsimp only
    split
    · omega
    · split
      · exact le_trans (ih _) (by simp)
      · split
        · exact le_trans (ih _) (by simp)
        · split
          · exact le_trans (ih _) (by simp)
          · split
            · exact le_trans (holdsOnSlot_set_le _ _ _ _) (by simp)
            · refine le_trans (ih _) ?_
              dsimp only
              rw [holdsPop_holdsSet]
              exact Nat.add_le_add_right (holdsOnSlot_pop_le σ.holds _ t) _

theorem notify_holdsOnSlot (parse : Str → Option Time) (cfg : Config)
    (deliver : Nat → Bool) (tnow : Time) (freedTime t : Str) (σ : SysState) :
    holdsOnSlot (notify_catchers_for_time parse cfg deliver tnow freedTime σ).holds t ≤
      holdsOnSlot σ.holds t + (if freedTime = t then 1 else 0) :=
  notifyFuel_holdsOnSlot parse cfg deliver tnow freedTime t _ σ

theorem claimOp_holdsOnSlot_le (parse : Str → Option Time) (cfg : Config)
    (deliver : Nat → Bool) (uidClient : Nat → Option Str) (tnow : Time)
    (uid : Nat) (desired t : Str) (σ : SysState) :
    holdsOnSlot ((claimOp parse cfg deliver uidClient tnow uid desired σ).2).holds t ≤
      holdsOnSlot σ.holds t := by
  rw [claimOp]
  split
  · exact le_refl _
  · rename_i hold heq1
    split
    · exact le_refl _
    · rename_i hne
      have hht : hold.time = desired := by
        by_contra hc
        exact hne hc
      split
      · exact holdsOnSlot_pop_le _ _ _
      · split
        · exact holdsOnSlot_pop_le _ _ _
        · split
          · exact holdsOnSlot_pop_le _ _ _
          · split
            · exact le_refl _
            · refine le_trans (notify_holdsOnSlot _ _ _ _ _ _ _) ?_
              dsimp only
              by_cases hteq : desired = t
              · subst hteq
                rw [if_pos rfl]
                exact holdsOnSlot_get_pop σ.holds uid hold _ heq1 hht
              · rw [if_neg hteq]
                have h1 := holdsOnSlot_pop_le σ.holds uid t
                omega

theorem declineOp_holder_holdsOnSlot_le (parse : Str → Option Time) (cfg : Config)
    (deliver : Nat → Bool) (tnow : Time) (uid : Nat) (desired t : Str)
    (rid : Option Nat) (σ : SysState) (hold : Hold)
    (hg : holdsGet σ.holds uid = some hold) (hh : hold.time = desired) :
    holdsOnSlot (declineOp parse cfg deliver tnow uid desired rid σ).holds t ≤
      holdsOnSlot σ.holds t := by
  cases rid with
  | none =>
    rw [declineOp]
    refine le_trans (notify_holdsOnSlot _ _ _ _ _ _ _) ?_
    dsimp only
    by_cases hteq : desired = t
    · subst hteq
      rw [if_pos rfl]
      exact holdsOnSlot_get_pop σ.holds uid hold _ hg hh
    · rw [if_neg hteq]
      have h1 := holdsOnSlot_pop_le σ.holds uid t
      omega
  | some r =>
    rw [declineOp]
    refine le_trans (notify_holdsOnSlot _ _ _ _ _ _ _) ?_
    dsimp only
    by_cases hteq : desired = t
    · subst hteq
      rw [if_pos rfl]
      exact holdsOnSlot_get_pop σ.holds uid hold _ hg hh
    · rw [if_neg hteq]
      have h1 := holdsOnSlot_pop_le σ.holds uid t
      omega

theorem sweepExpire_holdsOnSlot_le (tnow : Time) (t : Str) (σ : SysState) :
    holdsOnSlot (sweepExpire tnow σ).holds t ≤ holdsOnSlot σ.holds t := by
  rw [sweepExpire]
  dsimp only
  rw [holdsOnSlot, holdsOnSlot, List.countP_filter]
  exact List.countP_mono_left (fun x _ hx => by
    simp only [Bool.and_eq_true] at hx
    exact hx.1)

/-- C5 (amended): a single notification run creates at most one new hold,
and only for its freed slot; the claim handler never increases the number
of holds on any slot; a decline by a user whose own hold is on the declined
slot never increases it; the expiry pass only removes holds.  In particular
a slot with no outstanding hold has at most one after one notification run.
The invariant as originally stated fails when notification is re-triggered
for a slot whose hold is still outstanding — the situation the spec's
"normal operation" proviso sets aside — see c5_counterexample. -/
theorem c5_one_hold_per_notification (parse : Str → Option Time) (cfg : Config)
    (deliver : Nat → Bool) (uidClient : Nat → Option Str) (tnow : Time)
    (uid : Nat) (desired t freedTime : Str) (rid : Option Nat) (σ : SysState) :
    (holdsOnSlot (notify_catchers_for_time parse cfg deliver tnow freedTime σ).holds t ≤
        holdsOnSlot σ.holds t + (if freedTime = t then 1 else 0)) ∧
      (holdsOnSlot σ.holds freedTime = 0 →
        holdsOnSlot (notify_catchers_for_time parse cfg deliver tnow freedTime σ).holds
          freedTime ≤ 1) ∧
      (holdsOnSlot ((claimOp parse cfg deliver uidClient tnow uid desired σ).2).holds t ≤
        holdsOnSlot σ.holds t) ∧
      ((∃ hold, holdsGet σ.holds uid = some hold ∧ hold.time = desired) →
        holdsOnSlot (declineOp parse cfg deliver tnow uid desired rid σ).holds t ≤
          holdsOnSlot σ.holds t) ∧
      (holdsOnSlot (sweepExpire tnow σ).holds t ≤ holdsOnSlot σ.holds t) := by
  refine ⟨notify_holdsOnSlot parse cfg deliver tnow freedTime t σ, ?_, ?_, ?_, ?_⟩
  · intro h0
    have h1 := notify_holdsOnSlot parse cfg deliver tnow freedTime freedTime σ
    rw [h0, if_pos rfl] at h1
    omega
  · exact claimOp_holdsOnSlot_le parse cfg deliver uidClient tnow uid desired t σ
  · rintro ⟨hold, hg, hh⟩
    exact declineOp_holder_holdsOnSlot_le parse cfg deliver tnow uid desired t rid σ hold hg hh
  · exact sweepExpire_holdsOnSlot_le tnow t σ

/-- C5 fails as stated: from a hold-free state, two notification runs for
slot 3 (the second re-triggered before the first hold is resolved or
expired) reach a state with two outstanding holds on slot 3. -/
theorem c5_counterexample :
    WaitlistReachable parse0 cfg0 deliver0 uidClient0 c5Start c5End ∧
      2 ≤ holdsOnSlot c5End.holds 3 := by
  constructor
  · refine ⟨rfl, ?_⟩
    exact Relation.ReflTransGen.tail
      (Relation.ReflTransGen.tail Relation.ReflTransGen.refl
        (WaitlistStep.notifyFreed 10000 3 c5Start (by decide)))
      (WaitlistStep.notifyFreed 10001 3 c5Mid (by decide))
  · decide

/-- Witness for c5_one_hold_per_notification at the concrete state c5Mid:
a notification run for the hold-free slot 2 leaves at most one hold on it,
and a decline by user 100 (who holds slot 3) does not increase the number
of holds on slot 3. -/
theorem c5_witness :
    holdsOnSlot (notify_catchers_for_time parse0 cfg0 deliver0 10001 2 c5Mid).holds 2 ≤ 1 ∧
      holdsOnSlot (declineOp parse0 cfg0 deliver0 10001 100 3 none c5Mid).holds 3 ≤
        holdsOnSlot c5Mid.holds 3 :=
  ⟨(c5_one_hold_per_notification parse0 cfg0 deliver0 uidClient0 10001 100 3 2 2 none
        c5Mid).2.1 (by decide),
    (c5_one_hold_per_notification parse0 cfg0 deliver0 uidClient0 10001 100 3 3 2 none
        c5Mid).2.2.2.1
      ⟨{ time := 3, expires := 10030, service := 0, row := 2 }, by decide, rfl⟩⟩

theorem catchMatches_append_none (t : Str) (l1 l2 : List CatchRow)
    (h : ∀ r ∈ l1, ¬(r.time = t ∧ r.notified = false)) :
    ∀ i, catchMatches t (l1 ++ l2) i = catchMatches t l2 (i + l1.length) := by
  induction l1 with
  | nil => intro i; simp
  | cons r rest ih =>
    intro i
    have hr := h r (by simp)
    rw [List.cons_append, catchMatches, if_neg hr]
    rw [ih (fun x hx => h x (by simp [hx])) (i + 1)]
    congr 1
    simp [List.length_cons]
    omega

theorem find?_append_key (l : List (Nat × Hold)) (uid : Nat) (h : Hold)
    (hl : ∀ p ∈ l, (p.1 == uid) = false) :
    (l ++ [(uid, h)]).find? (fun p => p.1 == uid) = some (uid, h) := by
  induction l with
  | nil => simp
  | cons p rest ih =>
    rw [List.cons_append, List.find?_cons, hl p (by simp)]
    exact ih (fun q hq => hl q (by simp [hq]))

theorem holdsGet_holdsSet (hs : List (Nat × Hold)) (uid : Nat) (h : Hold) :
    holdsGet (holdsSet hs uid h) uid = some h := by
  rw [holdsGet, holdsSet, find?_append_key]
  · rfl
  · intro p hp
    have hmem := List.of_mem_filter hp
    simpa [bne] using hmem

theorem setNotifiedAt_append (l1 : List CatchRow) (r : CatchRow) (l2 : List CatchRow) :
    setNotifiedAt (l1 ++ r :: l2) l1.length = l1 ++ { r with notified := true } :: l2 := by
  induction l1 with
  | nil => rfl
  | cons a as ih =>
    rw [List.cons_append, List.length_cons, setNotifiedAt, ih, List.cons_append]

theorem eraseAt_append (l1 : List CatchRow) (r : CatchRow) (l2 : List CatchRow) :
    eraseAt (l1 ++ r :: l2) l1.length = l1 ++ l2 := by
  induction l1 with
  | nil => rfl
  | cons a as ih =>
    rw [List.cons_append, List.length_cons, eraseAt, ih, List.cons_append]

theorem notify_success_eq (parse : Str → Option Time) (cfg : Config) (deliver : Nat → Bool)
    (tnow : Time) (freedTime : Str) (σ : SysState) (idx : Nat) (row : CatchRow)
    (rest : List (Nat × CatchRow)) (uid : Nat) (dt : Time)
    (hm : get_catch_for_time σ.queue freedTime = (idx, row) :: rest)
    (hu : row.userId = some uid) (hp : parse freedTime = some dt)
    (hw : ¬ min 30 (dt - tnow - 60 * cfg.unavailableBeforeHours) ≤ 0)
    (hd : deliver (row.chat.getD uid) = true) :
    notify_catchers_for_time parse cfg deliver tnow freedTime σ =
      { σ with queue := setNotifiedAt σ.queue (idx - 2),
               holds := holdsSet σ.holds uid
                 { time := freedTime,
                   expires := tnow + min 30 (dt - tnow - 60 * cfg.unavailableBeforeHours),
                   service := row.service, row := idx } } := by
  rw [notify_catchers_for_time, notifyFuel, hm]
  dsimp only
  rw [hu]
  dsimp only
  rw [hp]
  dsimp only
  rw [if_neg hw, if_pos hd]
  rfl

/-- C7: waitlist FIFO.  For two catch-queue entries for the same slot s,
the earlier-created entry preceding the later one in store row order (with
no other pending candidate for s before or between them), freeing s
notifies the earlier entry's user first — that user receives the hold —
and after that user declines, the later entry's user is notified next and
receives the hold, provided both users' rows carry integer ids, delivery
succeeds, and the claim window is open at both moments. -/
theorem c7_fifo (parse : Str → Option Time) (cfg : Config) (deliver : Nat → Bool)
    (tnow tnow2 : Time) (σ : SysState) (q1 q2 q3 : List CatchRow) (e1 e2 : CatchRow)
    (u1 u2 : Nat) (s : Str) (dt : Time)
    (hq : σ.queue = q1 ++ e1 :: (q2 ++ e2 :: q3))
    (hnc1 : ∀ r ∈ q1, ¬(r.time = s ∧ r.notified = false))
    (hnc2 : ∀ r ∈ q2, ¬(r.time = s ∧ r.notified = false))
    (he1 : e1.time = s) (hn1 : e1.notified = false)
    (he2 : e2.time = s) (hn2 : e2.notified = false)
    (hu1 : e1.userId = some u1) (hu2 : e2.userId = some u2)
    (_hcr : e1.created < e2.created)
    (hp : parse s = some dt)
    (hw1 : ¬ min 30 (dt - tnow - 60 * cfg.unavailableBeforeHours) ≤ 0)
    (hw2 : ¬ min 30 (dt - tnow2 - 60 * cfg.unavailableBeforeHours) ≤ 0)
    (hd1 : deliver (e1.chat.getD u1) = true) (hd2 : deliver (e2.chat.getD u2) = true) :
    holdsGet (notify_catchers_for_time parse cfg deliver tnow s σ).holds u1 =
        some { time := s,
               expires := tnow + min 30 (dt - tnow - 60 * cfg.unavailableBeforeHours),
               service := e1.service, row := q1.length + 2 } ∧
      holdsGet (declineOp parse cfg deliver tnow2 u1 s (some (q1.length + 2))
            (notify_catchers_for_time parse cfg deliver tnow s σ)).holds u2 =
        some { time := s,
               expires := tnow2 + min 30 (dt - tnow2 - 60 * cfg.unavailableBeforeHours),
               service := e2.service, row := q1.length + q2.length + 2 } := by
  have hm1 : get_catch_for_time σ.queue s =
      (q1.length + 2, e1) :: catchMatches s (q2 ++ e2 :: q3) (q1.length + 3) := by
    rw [get_catch_for_time, hq, catchMatches_append_none s q1 (e1 :: (q2 ++ e2 :: q3)) hnc1 2,
      catchMatches, if_pos ⟨he1, hn1⟩]
    have h2 : 2 + q1.length = q1.length + 2 := by omega
    rw [h2]
  have hstep1 := notify_success_eq parse cfg deliver tnow s σ (q1.length + 2) e1 _ u1 dt
    hm1 hu1 hp hw1 hd1
  have hidx : q1.length + 2 - 2 = q1.length := by omega
  rw [hidx] at hstep1
  constructor
  · rw [hstep1]
    exact holdsGet_holdsSet σ.holds u1 _
  · rw [hstep1, declineOp]
    dsimp only
    have hqueue2 : delete_catch (setNotifiedAt σ.queue q1.length) (q1.length + 2) =
        q1 ++ (q2 ++ e2 :: q3) := by
      rw [hq, setNotifiedAt_append, delete_catch, hidx]
      exact eraseAt_append q1 _ _
    have hholds2 : holdsPop (holdsSet σ.holds u1
        { time := s, expires := tnow + min 30 (dt - tnow - 60 * cfg.unavailableBeforeHours),
          service := e1.service, row := q1.length + 2 }) u1 = holdsPop σ.holds u1 :=
      holdsPop_holdsSet σ.holds u1 _
    rw [hqueue2, hholds2]
    have hm2 : get_catch_for_time (q1 ++ (q2 ++ e2 :: q3)) s =
        (q1.length + q2.length + 2, e2) ::
          catchMatches s q3 (q1.length + q2.length + 3) := by
      rw [get_catch_for_time, catchMatches_append_none s q1 (q2 ++ e2 :: q3) hnc1 2,
        catchMatches_append_none s q2 (e2 :: q3) hnc2 (2 + q1.length),
        catchMatches, if_pos ⟨he2, hn2⟩]
      have ha : 2 + q1.length + q2.length = q1.length + q2.length + 2 := by omega
      rw [ha]
    have hstep2 := notify_success_eq parse cfg deliver tnow2 s
      { bookings := σ.bookings, queue := q1 ++ (q2 ++ e2 :: q3),
        holds := holdsPop σ.holds u1, clock := σ.clock }
      (q1.length + q2.length + 2) e2 _ u2 dt hm2 hu2 hp hw2 hd2
    rw [hstep2]
    exact holdsGet_holdsSet (holdsPop σ.holds u1) u2 _

/-- Witness for c7_fifo: with users 100 and 200 queued in that order for
slot 3 (created at minutes 0 and 5), freeing the slot at minute 10000
grants the hold to user 100 at sheet row 2, and after user 100 declines at
minute 10001, user 200 receives the hold at sheet row 2 (row order after
the deletion). -/
theorem c7_witness :
    holdsGet (notify_catchers_for_time parse0 cfg0 deliver0 10000 3
        { bookings := [],
          queue := [{ userId := some 100, time := 3, clientId := 10, service := 0,
                      notified := false, created := 0, chat := some 100 },
                    { userId := some 200, time := 3, clientId := 20, service := 0,
                      notified := false, created := 5, chat := some 200 }],
          holds := [], clock := 0 }).holds 100 =
        some { time := 3,
               expires := 10000 + min 30 (40000 - 10000 - 60 * cfg0.unavailableBeforeHours),
               service := 0, row := 2 } ∧
      holdsGet (declineOp parse0 cfg0 deliver0 10001 100 3 (some 2)
          (notify_catchers_for_time parse0 cfg0 deliver0 10000 3
            { bookings := [],
              queue := [{ userId := some 100, time := 3, clientId := 10, service := 0,
                          notified := false, created := 0, chat := some 100 },
                        { userId := some 200, time := 3, clientId := 20, service := 0,
                          notified := false, created := 5, chat := some 200 }],
              holds := [], clock := 0 })).holds 200 =
        some { time := 3,
               expires := 10001 + min 30 (40000 - 10001 - 60 * cfg0.unavailableBeforeHours),
               service := 0, row := 2 } :=
  c7_fifo parse0 cfg0 deliver0 10000 10001
    { bookings := [],
      queue := [{ userId := some 100, time := 3, clientId := 10, service := 0,
                  notified := false, created := 0, chat := some 100 },
                { userId := some 200, time := 3, clientId := 20, service := 0,
                  notified := false, created := 5, chat := some 200 }],
      holds := [], clock := 0 }
    [] [] []
    { userId := some 100, time := 3, clientId := 10, service := 0,
      notified := false, created := 0, chat := some 100 }
    { userId := some 200, time := 3, clientId := 20, service := 0,
      notified := false, created := 5, chat := some 200 }
    100 200 3 40000 rfl (by decide) (by decide) rfl rfl rfl rfl rfl rfl
    (by decide) (by decide) (by decide) (by decide) rfl rfl

/-- C2 fails as stated: the state c2t6 is reachable from the empty store by
book, sweep, book, book, catch-queue add, cancel and claim, and in it
client 10 has two active bookings (slots 2 and 3, both future and
unconfirmed).  The claim flow deleted client 10's first booking row — a
stale auto-cancelled past row — instead of the active one before creating
the new booking. -/
theorem c2_counterexample :
    Reachable parse0 cfg0 allTimes0 deliver0 uidClient0 c2t6 ∧
      2 ≤ activeCount parse0 c2t6.clock c2t6.bookings 10 := by
  constructor
  · exact Relation.ReflTransGen.tail
      (Relation.ReflTransGen.tail
        (Relation.ReflTransGen.tail
          (Relation.ReflTransGen.tail
            (Relation.ReflTransGen.tail
              (Relation.ReflTransGen.tail
                (Relation.ReflTransGen.tail Relation.ReflTransGen.refl
                  (Step.book 0 10 1 initState (by decide)))
                (Step.sweep 8560 c2t0 (by decide)))
              (Step.book 10001 10 2 c2t1 (by decide)))
            (Step.book 10002 20 3 c2t2 (by decide)))
          (Step.catchAdd 10003 100 3 0 10 100 c2t3 (by decide)))
        (Step.cancel 10004 20 c2t4 (by decide)))
      (Step.claim 10010 100 3 c2t5 (by decide))
  · decide

theorem slotFuture_mono (parse : Str → Option Time) (t1 t2 : Time) (slot : Str)
    (h : t1 ≤ t2) (ha : slotFuture parse t2 slot = true) :
    slotFuture parse t1 slot = true := by
  cases hp : parse slot with
  | none => simp [slotFuture, hp] at ha
  | some dt =>
    simp only [slotFuture, hp, decide_eq_true_eq] at ha ⊢
    linarith

theorem isActive_mono (parse : Str → Option Time) (t1 t2 : Time) (r : BookingRow)
    (h : t1 ≤ t2) (ha : isActive parse t2 r = true) : isActive parse t1 r = true := by
  rw [isActive, Bool.and_eq_true] at ha ⊢
  exact ⟨slotFuture_mono parse t1 t2 r.slot h ha.1, ha.2⟩

theorem activeCount_mono_time (parse : Str → Option Time) (t1 t2 : Time)
    (rows : List BookingRow) (cid : Str) (h : t1 ≤ t2) :
    activeCount parse t2 rows cid ≤ activeCount parse t1 rows cid := by
  rw [activeCount, activeCount]
  refine List.countP_mono_left (fun r _ hr => ?_)
  simp only [Bool.and_eq_true] at hr ⊢
  exact ⟨hr.1, isActive_mono parse t1 t2 r h hr.2⟩

theorem activeCount_append_single (parse : Str → Option Time) (tnow : Time)
    (rows : List BookingRow) (r : BookingRow) (cid : Str) :
    activeCount parse tnow (rows ++ [r]) cid =
      activeCount parse tnow rows cid +
        (if r.clientId == cid && isActive parse tnow r then 1 else 0) := by
  rw [activeCount, activeCount, List.countP_append]
  congr 1
  simp [List.countP_cons]

theorem activeCount_zero_of_not_busy (parse : Str → Option Time) (tnow : Time)
    (rows : List BookingRow) (cid : Str)
    (h : bookGuardBusy parse tnow rows cid = false) :
    activeCount parse tnow rows cid = 0 := by
  rw [bookGuardBusy, List.any_eq_false] at h
  rw [activeCount, List.countP_eq_zero]
  intro r hr
  have hb := h r hr
  intro hc
  apply hb
  simp only [Bool.and_eq_true] at hc ⊢
  refine ⟨hc.1, ?_⟩
  have h2 := hc.2
  rw [isActive, Bool.and_eq_true] at h2
  exact h2.1

theorem remove_booking_sublist (rows : List BookingRow) (cid : Str) :
    List.Sublist (remove_booking_by_client rows cid).2 rows := by
  induction rows with
  | nil => simp [remove_booking_by_client]
  | cons r rest ih =>
    rw [remove_booking_by_client]
    by_cases hc : r.clientId = cid
    · rw [if_pos hc]
      exact List.sublist_cons_self r rest
    · rw [if_neg hc]
      exact List.Sublist.cons₂ r ih

theorem activeCount_remove_le (parse : Str → Option Time) (tnow : Time)
    (rows : List BookingRow) (cidRemoved cid : Str) :
    activeCount parse tnow (remove_booking_by_client rows cidRemoved).2 cid ≤
      activeCount parse tnow rows cid :=
  List.Sublist.countP_le _ (remove_booking_sublist rows cidRemoved)

theorem activeCount_zero_of_find_none (parse : Str → Option Time) (tnow : Time)
    (rows : List BookingRow) (cid : Str)
    (h : rows.find? (fun r => r.clientId == cid) = none) :
    activeCount parse tnow rows cid = 0 := by
  rw [List.find?_eq_none] at h
  rw [activeCount, List.countP_eq_zero]
  intro r hr hc
  rw [Bool.and_eq_true] at hc
  exact h r hr hc.1

theorem activeCount_remove_first (parse : Str → Option Time) (tnow : Time)
    (rows : List BookingRow) (cid : Str) (r0 : BookingRow)
    (hf : rows.find? (fun r => r.clientId == cid) = some r0)
    (ha : isActive parse tnow r0 = true) :
    activeCount parse tnow (remove_booking_by_client rows cid).2 cid + 1 ≤
      activeCount parse tnow rows cid := by
  induction rows with
  | nil => simp at hf
  | cons r rest ih =>
    rw [List.find?_cons] at hf
    by_cases hc : (r.clientId == cid) = true
    · rw [hc] at hf
      have hr0 : r = r0 := by simpa using hf
      subst hr0
      rw [remove_booking_by_client, if_pos (by simpa using hc)]
      dsimp only
      simp only [activeCount]
      rw [List.countP_cons_of_pos _ _ (by simp [hc, ha])]
    · rw [(show (r.clientId == cid) = false by simpa using hc)] at hf
      have hff : rest.find? (fun r => r.clientId == cid) = some r0 := by simpa using hf
      rw [remove_booking_by_client, if_neg (by simpa using hc)]
      dsimp only
      have ihh := ih hff
      simp only [activeCount] at ihh ⊢
      rw [List.countP_cons]
      rw [List.countP_cons]
      omega

theorem activeCount_setStatusCancelled_le (parse : Str → Option Time) (tnow : Time)
    (cid : Str) :
    ∀ (rows : List BookingRow) (i : Nat),
      activeCount parse tnow (setStatusAt rows i BStatus.cancelled) cid ≤
        activeCount parse tnow rows cid := by
  intro rows
  induction rows with
  | nil => intro i; cases i <;> exact le_refl _
  | cons r rest ih =>
    intro i
    cases i with
    | zero =>
      rw [setStatusAt]
      simp only [activeCount]
      rw [List.countP_cons, List.countP_cons]
      have hz : (({ r with status := BStatus.cancelled } : BookingRow).clientId == cid &&
          isActive parse tnow { r with status := BStatus.cancelled }) = false := by
        simp [isActive]
      rw [hz]
      simp
    | succ n =>
      rw [setStatusAt]
      simp only [activeCount]
      rw [List.countP_cons, List.countP_cons]
      have ihh := ih n
      simp only [activeCount] at ihh
      omega

theorem sweepCancelGo_activeCount_le (parse : Str → Option Time) (cfg : Config)
    (deliver : Nat → Bool) (tnow : Time) (cid : Str) :
    ∀ (rows : List BookingRow) (i : Nat) (σ : SysState),
      activeCount parse tnow
          (sweepCancelGo parse cfg deliver tnow rows i σ).bookings cid ≤
        activeCount parse tnow σ.bookings cid := by
  intro rows
  induction rows with
  | nil => intro i σ; exact le_refl _
  | cons r rest ih =>
    intro i σ
    rw [sweepCancelGo]
    split
    · refine le_trans (ih _ _) ?_
      rw [notify_bookings]
      dsimp only
      exact activeCount_setStatusCancelled_le parse tnow cid σ.bookings i
    · exact ih _ _

theorem mark_past_activeCount_le (parse : Str → Option Time) (tnow : Time)
    (σ : SysState) (cid : Str) :
    activeCount parse tnow (mark_past_bookings parse tnow σ).bookings cid ≤
      activeCount parse tnow σ.bookings cid := by
  rw [mark_past_bookings]
  dsimp only
  rw [activeCount, activeCount, List.countP_map]
  refine List.countP_mono_left (fun r _ hr => ?_)
  revert hr
  cases hp : parse r.slot with
  | none =>
    intro hr
    simpa [hp] using hr
  | some dt =>
    by_cases hcond : dt < tnow ∧ r.status ≠ BStatus.cancelled ∧ r.status ≠ BStatus.past
    · intro hr
      exfalso
      simp only [Function.comp_apply, hp, if_pos hcond, Bool.and_eq_true] at hr
      have h2 := hr.2
      rw [isActive, Bool.and_eq_true] at h2
      have h3 := h2.1
      rw [slotFuture] at h3
      dsimp only at h3
      rw [hp] at h3
      simp only [decide_eq_true_eq] at h3
      have := hcond.1
      linarith
    · intro hr
      simpa [hp, if_neg hcond] using hr

theorem activeCount_append_other (parse : Str → Option Time) (tnow : Time)
    (rows : List BookingRow) (r : BookingRow) (cid : Str) (h : r.clientId ≠ cid) :
    activeCount parse tnow (rows ++ [r]) cid = activeCount parse tnow rows cid := by
  rw [activeCount_append_single]
  have hz : (r.clientId == cid && isActive parse tnow r) = false := by simp [h]
  rw [hz]
  simp

/-- C2 (amended): starting from any state in which every client has at most
one active booking, the booking flow (which refuses a client who already
has an active booking), cancellation, the catch-queue addition, decline and
the background sweep all preserve the at-most-one-active-booking-per-client
invariant; the claim flow preserves it provided the claimant's first
booking row in store order is their active booking or they have no row at
all.  Without that proviso the claim flow can delete a stale cancelled row
instead of the active booking and leave the claimant with two active
bookings — see c2_counterexample. -/
theorem c2_preservation (parse : Str → Option Time) (cfg : Config) (allTimes : List Str)
    (deliver : Nat → Bool) (uidClient : Nat → Option Str) (σ : SysState) (tnow : Time)
    (hck : σ.clock ≤ tnow)
    (hInv : ∀ cid, activeCount parse σ.clock σ.bookings cid ≤ 1) :
    (∀ clientId slot, 0 < activeCount parse tnow σ.bookings clientId →
      (bookOp parse cfg allTimes tnow clientId slot σ).1 = BookResult.alreadyBooked) ∧
      (∀ clientId slot cid,
        activeCount parse tnow
          ((bookOp parse cfg allTimes tnow clientId slot σ).2).bookings cid ≤ 1) ∧
      (∀ clientId cid,
        activeCount parse tnow
          ((cancelOp parse cfg deliver tnow clientId σ).2).bookings cid ≤ 1) ∧
      (∀ uid desired service idClient chatId cid,
        activeCount parse tnow
          ((addCatchOp parse cfg tnow uid desired service idClient chatId σ).2).bookings
          cid ≤ 1) ∧
      (∀ uid desired rid cid,
        activeCount parse tnow
          (declineOp parse cfg deliver tnow uid desired rid σ).bookings cid ≤ 1) ∧
      (∀ cid,
        activeCount parse tnow (sweepTick parse cfg deliver tnow σ).bookings cid ≤ 1) ∧
      (∀ uid desired cid,
        (∀ c, uidClient uid = some c → firstRowGood parse tnow σ.bookings c = true) →
        activeCount parse tnow
          ((claimOp parse cfg deliver uidClient tnow uid desired σ).2).bookings cid ≤ 1) := by
  have hInv2 : ∀ cid, activeCount parse tnow σ.bookings cid ≤ 1 := fun cid =>
    le_trans (activeCount_mono_time parse σ.clock tnow σ.bookings cid hck) (hInv cid)
  refine ⟨?_, ?_, ?_, ?_, ?_, ?_, ?_⟩
  · intro clientId slot hpos
    have hbusy : bookGuardBusy parse tnow σ.bookings clientId = true := by
      rw [bookGuardBusy, List.any_eq_true]
      rw [activeCount] at hpos
      rcases List.countP_pos_iff.mp hpos with ⟨r, hr, hp⟩
      refine ⟨r, hr, ?_⟩
      simp only [Bool.and_eq_true] at hp ⊢
      rcases hp with ⟨h1, h2⟩
      rw [isActive, Bool.and_eq_true] at h2
      exact ⟨h1, h2.1⟩
    rw [bookOp, if_pos hbusy]
  · intro clientId slot cid
    rw [bookOp]
    split
    · exact hInv2 cid
    · rename_i hnb
      split
      · dsimp only
        rw [add_booking]
        by_cases hcc : clientId = cid
        · subst hcc
          rw [activeCount_append_single]
          have h0 := activeCount_zero_of_not_busy parse tnow σ.bookings clientId
            (by simpa using hnb)
          rw [h0]
          split <;> omega
        · rw [activeCount_append_other parse tnow σ.bookings _ cid hcc]
          exact hInv2 cid
      · exact hInv2 cid
  · intro clientId cid
    rw [cancelOp]
    split
    · rename_i freed rows heq
      dsimp only
      rw [notify_bookings]
      dsimp only
      have h := activeCount_remove_le parse tnow σ.bookings clientId cid
      rw [heq] at h
      exact le_trans h (hInv2 cid)
    · rename_i rows heq
      dsimp only
      have h := activeCount_remove_le parse tnow σ.bookings clientId cid
      rw [heq] at h
      exact le_trans h (hInv2 cid)
  · intro uid desired service idClient chatId cid
    rw [addCatchOp]
    split
    · dsimp only
      exact hInv2 cid
    · exact hInv2 cid
  · intro uid desired rid cid
    cases rid with
    | none =>
      rw [declineOp, notify_bookings]
      exact hInv2 cid
    | some r =>
      rw [declineOp, notify_bookings]
      exact hInv2 cid
  · intro cid
    rw [sweepTick]
    refine le_trans (mark_past_activeCount_le parse tnow _ cid) ?_
    rw [sweepCancel]
    refine le_trans (sweepCancelGo_activeCount_le parse cfg deliver tnow cid _ _ _) ?_
    exact hInv2 cid
  · intro uid desired cid hfrg
    rw [claimOp]
    split
    · exact hInv2 cid
    · split
      · exact hInv2 cid
      · split
        · dsimp only
          exact hInv2 cid
        · split
          · dsimp only
            exact hInv2 cid
          · split
            · dsimp only
              exact hInv2 cid
            · split
              · exact hInv2 cid
              · rename_i c heqc
                dsimp only
                rw [notify_bookings]
                dsimp only
                rw [add_booking]
                by_cases hcc : c = cid
                · subst hcc
                  rw [activeCount_append_single]
                  have hfg := hfrg c heqc
                  rw [firstRowGood] at hfg
                  cases hf : σ.bookings.find? (fun r => r.clientId == c) with
                  | none =>
                    have h0 := activeCount_zero_of_find_none parse tnow σ.bookings c hf
                    have hle := activeCount_remove_le parse tnow σ.bookings c c
                    rw [h0] at hle
                    split <;> omega
                  | some r0 =>
                    rw [hf] at hfg
                    have h1 := activeCount_remove_first parse tnow σ.bookings c r0 hf hfg
                    have h2 := hInv2 c
                    split <;> omega
                · rw [activeCount_append_other parse tnow _ _ cid hcc]
                  exact le_trans (activeCount_remove_le parse tnow σ.bookings c cid)
                    (hInv2 cid)

/-- Witness for c2_preservation at the concrete state c2w: client 10, who
has an active booking, is refused a second booking, and user 100's claim of
slot 3 (whose first row is the active booking) leaves client 10 with at
most one active booking. -/
theorem c2_witness :
    (bookOp parse0 cfg0 allTimes0 10005 10 1 c2w).1 = BookResult.alreadyBooked ∧
      activeCount parse0 10005
        ((claimOp parse0 cfg0 deliver0 uidClient0 10005 100 3 c2w).2).bookings 10 ≤ 1 :=
  ⟨(c2_preservation parse0 cfg0 allTimes0 deliver0 uidClient0 c2w 10005 (by decide)
      (fun _ => List.countP_le_length _)).1 10 1 (by decide),
    (c2_preservation parse0 cfg0 allTimes0 deliver0 uidClient0 c2w 10005 (by decide)
      (fun _ => List.countP_le_length _)).2.2.2.2.2.2 100 3 10
      (fun c hc => by
        have hc2 : c = 10 := by
          have h3 : (some 10 : Option Str) = some c := hc
          simpa using h3.symm
        subst hc2
        decide)⟩
